import Mathlib

/-!
Shallow embedding of the `unixconn-rust` client (src/lib.rs): the frame
codec (`message_to_bytes`, `parse_message`), the framing read loop
(`read_message`) and the request/response logic of `Client::do_request`.

Bytes are modelled as `Nat` (every byte produced or consumed by the code
is < 256); a byte stream is a `List Nat` read from the front, where the
end of the list models end-of-stream.  Rust `String` fields are modelled
as their UTF-8 byte lists, together with the validity predicate
`utf8Valid` that models `String::from_utf8` succeeding.  Fallible Rust
functions returning `Result<_, Box<dyn Error>>` become `Except ClientError _`,
with one constructor per distinct error the code can produce.
-/

namespace Unixconn

/-- `const PROTOCOL_FIELDS: usize = 4;` -/
def PROTOCOL_FIELDS : Nat := 4

/-- `fn metadata_delim() -> &'static [u8] { &[0x1E] }` — the field separator. -/
def metadata_delim : List Nat := [0x1E]

/-- `fn message_delim() -> u8 { 0x1F }` — the frame terminator. -/
def message_delim : Nat := 0x1F

/-- `struct Message` with its fields in source order; the three Rust
`String` fields are carried as UTF-8 byte lists and `body: Bytes` as a raw
byte list. -/
structure Message where
  request_id : List Nat
  method_name : List Nat
  body : List Nat
  error : List Nat
  deriving DecidableEq, Repr

/-- Is `b` a UTF-8 continuation byte (`0x80..=0xBF`)? -/
def utf8Cont (b : Nat) : Bool := 0x80 ≤ b && b ≤ 0xBF

/-- Models Rust's `String::from_utf8(v).is_ok()`: `v` is well-formed UTF-8
(the standard table, including the overlong/surrogate/range restrictions on
`0xE0`, `0xED`, `0xF0`, `0xF4`). -/
def utf8Valid : List Nat → Bool
  | [] => true
  | b :: rest =>
    if b ≤ 0x7F then utf8Valid rest
    else if 0xC2 ≤ b && b ≤ 0xDF then
      match rest with
      | c1 :: r => utf8Cont c1 && utf8Valid r
      | [] => false
    else if b = 0xE0 then
      match rest with
      | c1 :: c2 :: r => (0xA0 ≤ c1 && c1 ≤ 0xBF) && utf8Cont c2 && utf8Valid r
      | _ => false
    else if (0xE1 ≤ b && b ≤ 0xEC) || b = 0xEE || b = 0xEF then
      match rest with
      | c1 :: c2 :: r => utf8Cont c1 && utf8Cont c2 && utf8Valid r
      | _ => false
    else if b = 0xED then
      match rest with
      | c1 :: c2 :: r => (0x80 ≤ c1 && c1 ≤ 0x9F) && utf8Cont c2 && utf8Valid r
      | _ => false
    else if b = 0xF0 then
      match rest with
      | c1 :: c2 :: c3 :: r =>
        (0x90 ≤ c1 && c1 ≤ 0xBF) && utf8Cont c2 && utf8Cont c3 && utf8Valid r
      | _ => false
    else if 0xF1 ≤ b && b ≤ 0xF3 then
      match rest with
      | c1 :: c2 :: c3 :: r =>
        utf8Cont c1 && utf8Cont c2 && utf8Cont c3 && utf8Valid r
      | _ => false
    else if b = 0xF4 then
      match rest with
      | c1 :: c2 :: c3 :: r =>
        (0x80 ≤ c1 && c1 ≤ 0x8F) && utf8Cont c2 && utf8Cont c3 && utf8Valid r
      | _ => false
    else false

/-- The UTF-8 bytes of an ASCII string literal (every constant interpolated
by the code is ASCII, where UTF-8 bytes coincide with the code points). -/
def strBytes (s : String) : List Nat := s.data.map Char.toNat

/-- The distinct failures `do_request` and its callees can produce, one
constructor per `Err` site:
* `connClosed` — `read_exact` hit end-of-stream before the terminator;
* `protocolError n` — `parse_message` saw `n ≠ 4` parts;
* `encodingError` — `String::from_utf8` failed on a text field;
* `appError e` — `"client response error: {e}"`;
* `wrongRequestId e` — `"client wrong requestID error: {e}"`;
* `invalidTimeout` — `set_read_timeout(Some(Duration::from_secs(0)))`. -/
inductive ClientError where
  | connClosed : ClientError
  | protocolError : Nat → ClientError
  | encodingError : ClientError
  | appError : List Nat → ClientError
  | wrongRequestId : List Nat → ClientError
  | invalidTimeout : ClientError
  deriving DecidableEq, Repr

/-- The text the repository itself formats for an error (the byte list of
the `format!` result); `none` for errors whose text comes from external
`Display` implementations. -/
def errorText : ClientError → Option (List Nat)
  | .appError e => some (strBytes "client response error: " ++ e)
  | .wrongRequestId e => some (strBytes "client wrong requestID error: " ++ e)
  | _ => none

/-- Rust `slice::split` on a one-byte separator: every separator cuts, the
empty slice yields one empty part, adjacent/trailing separators yield empty
parts. -/
def splitSep (sep : Nat) : List Nat → List (List Nat)
  | [] => [[]]
  | b :: rest =>
    if b = sep then [] :: splitSep sep rest
    else
      match splitSep sep rest with
      | [] => [[b]]
      | p :: ps => (b :: p) :: ps

/-- `fn parse_message(body: &[u8]) -> Result<Message, Box<dyn Error>>`:
split on `metadata_delim()[0]`, demand exactly `PROTOCOL_FIELDS` parts,
decode the first three parts as UTF-8 text and take the fourth raw. -/
def parse_message (body : List Nat) : Except ClientError Message :=
  let parts := splitSep (metadata_delim.headD 0) body
  match parts with
  | [p0, p1, p2, p3] =>
    if utf8Valid p0 then
      if utf8Valid p1 then
        if utf8Valid p2 then
          .ok { request_id := p0, method_name := p1, error := p2, body := p3 }
        else .error .encodingError
      else .error .encodingError
    else .error .encodingError
  | other => .error (.protocolError other.length)

/-- `fn message_to_bytes(r: &Message) -> Bytes`: the same sequence of
`buffer.put` calls on an initially empty buffer. -/
def message_to_bytes (r : Message) : List Nat :=
  let buffer : List Nat := []
  let buffer := buffer ++ r.request_id
  let buffer := buffer ++ metadata_delim
  let buffer := buffer ++ r.method_name
  let buffer := buffer ++ metadata_delim
  let buffer := buffer ++ r.error
  let buffer := buffer ++ metadata_delim
  let buffer := buffer ++ r.body
  let buffer := buffer ++ [message_delim]
  buffer

/-- The read loop of `read_message`: `read_exact` one byte at a time,
stopping at the first `message_delim()` (excluded from the result); end of
stream before the terminator is `read_exact`'s unexpected-EOF error,
surfaced as `connClosed`. -/
def readFrame : List Nat → Except ClientError (List Nat)
  | [] => .error .connClosed
  | b :: rest =>
    if b = message_delim then .ok []
    else
      match readFrame rest with
      | .ok acc => .ok (b :: acc)
      | .error e => .error e

/-- `fn read_message<R: Read>(reader: &mut R)`: accumulate a frame, then
`parse_message` it. -/
def read_message (input : List Nat) : Except ClientError Message :=
  match readFrame input with
  | .ok frame => parse_message frame
  | .error e => .error e

/-- Models the documented contract of `UnixStream::set_read_timeout(Some(d))`
from the Rust standard library (an external collaborator): it returns
`Err(InvalidInput)` exactly when the duration `d` is zero. -/
def setReadTimeoutResult (secs : Nat) : Except ClientError Unit :=
  if secs = 0 then .error .invalidTimeout else .ok ()

/-- `Client::do_request`.  The nondeterministic `Uuid::new_v4().to_string()`
is passed in as `request_id` (always a 36-character ASCII rendering); the
connection is split into the bytes written (first component of the result,
the transport write itself is assumed to succeed) and the incoming byte
stream `input`.  Mirrors the source order: build the request, encode it,
write it, arm the read timeout, read and decode one frame, then validate
`error` before `request_id`. -/
def do_request (timeout : Nat) (request_id : List Nat) (method_name : List Nat)
    (request_body : List Nat) (input : List Nat) :
    List Nat × Except ClientError (List Nat) :=
  let request : Message :=
    { request_id := request_id, method_name := method_name,
      body := request_body, error := [] }
  let raw_request := message_to_bytes request
  match setReadTimeoutResult timeout with
  | .error e => (raw_request, .error e)
  | .ok _ =>
    match read_message input with
    | .error e => (raw_request, .error e)
    | .ok message =>
      if message.error ≠ [] then
        (raw_request, .error (.appError message.error))
      else if message.request_id ≠ request_id then
        (raw_request, .error (.wrongRequestId message.error))
      else
        (raw_request, .ok message.body)

end Unixconn

deriving instance DecidableEq for Except

namespace Unixconn

/-! ## Helper lemmas about `splitSep` and the encoder -/

lemma splitSep_ne_nil (sep : Nat) (l : List Nat) : splitSep sep l ≠ [] := by
  cases l with
  | nil => simp [splitSep]
  | cons b rest =>
    simp only [splitSep]
    split
    · simp
    · split <;> simp

lemma splitSep_length (sep : Nat) (l : List Nat) :
    (splitSep sep l).length = l.count sep + 1 := by
  induction l with
  | nil => simp [splitSep]
  | cons b rest ih =>
    by_cases hb : b = sep
    · subst hb
      have hsp : splitSep b (b :: rest) = [] :: splitSep b rest := by
        simp [splitSep]
      rw [hsp, List.length_cons, ih, List.count_cons_self]
    · simp only [splitSep, if_neg hb]
      rcases h : splitSep sep rest with _ | ⟨p, ps⟩
      · exact absurd h (splitSep_ne_nil sep rest)
      · rw [h] at ih
        simp only [List.length_cons] at ih ⊢
        rw [List.count_cons_of_ne (fun e => hb e.symm)]
        omega

lemma splitSep_of_not_mem {sep : Nat} {l : List Nat} (h : sep ∉ l) :
    splitSep sep l = [l] := by
  induction l with
  | nil => simp [splitSep]
  | cons b rest ih =>
    have hb : b ≠ sep := fun e => h (e ▸ List.mem_cons_self b rest)
    have hr : sep ∉ rest := fun m => h (List.mem_cons_of_mem _ m)
    simp [splitSep, hb, ih hr]

lemma splitSep_append {sep : Nat} {xs : List Nat} (ys : List Nat) (h : sep ∉ xs) :
    splitSep sep (xs ++ sep :: ys) = xs :: splitSep sep ys := by
  induction xs with
  | nil => simp [splitSep]
  | cons a xs ih =>
    have ha : a ≠ sep := fun e => h (e ▸ List.mem_cons_self a xs)
    have hx : sep ∉ xs := fun m => h (List.mem_cons_of_mem _ m)
    simp [splitSep, ha, ih hx]

lemma message_to_bytes_concat (m : Message) :
    message_to_bytes m
      = (m.request_id ++ 0x1E :: (m.method_name ++ 0x1E :: (m.error ++ 0x1E :: m.body)))
          ++ [0x1F] := by
  simp [message_to_bytes, metadata_delim, message_delim]

lemma encode_dropLast (m : Message) :
    (message_to_bytes m).dropLast
      = m.request_id ++ 0x1E :: (m.method_name ++ 0x1E :: (m.error ++ 0x1E :: m.body)) := by
  rw [message_to_bytes_concat, List.dropLast_concat]

lemma splitSep_encode (m : Message) (h0 : 0x1E ∉ m.request_id)
    (h1 : 0x1E ∉ m.method_name) (h2 : 0x1E ∉ m.error) :
    splitSep 0x1E ((message_to_bytes m).dropLast)
      = m.request_id :: m.method_name :: m.error :: splitSep 0x1E m.body := by
  rw [encode_dropLast, splitSep_append _ h0, splitSep_append _ h1, splitSep_append _ h2]

lemma sep_byte : metadata_delim.headD 0 = 0x1E := rfl

lemma parse_message_not4 (bs : List Nat) (h : (splitSep 0x1E bs).length ≠ 4) :
    parse_message bs = .error (.protocolError (splitSep 0x1E bs).length) := by
  simp only [parse_message, sep_byte]
  rcases hp : splitSep 0x1E bs with _ | ⟨p0, _ | ⟨p1, _ | ⟨p2, _ | ⟨p3, _ | ⟨p4, ps⟩⟩⟩⟩⟩ <;>
    first
      | (rw [hp] at h; simp at h)
      | simp

lemma readFrame_term (pre rest : List Nat) (h : message_delim ∉ pre) :
    readFrame (pre ++ message_delim :: rest) = .ok pre := by
  induction pre with
  | nil => simp [readFrame]
  | cons b p ih =>
    have hb : b ≠ message_delim := fun e => h (e ▸ List.mem_cons_self b p)
    have hp : message_delim ∉ p := fun m => h (List.mem_cons_of_mem _ m)
    simp [readFrame, hb, ih hp]

lemma readFrame_eof (pre : List Nat) (h : message_delim ∉ pre) :
    readFrame pre = .error .connClosed := by
  induction pre with
  | nil => simp [readFrame]
  | cons b p ih =>
    have hb : b ≠ message_delim := fun e => h (e ▸ List.mem_cons_self b p)
    have hp : message_delim ∉ p := fun m => h (List.mem_cons_of_mem _ m)
    simp [readFrame, hb, ih hp]

/-! ## Claim theorems -/

/-- **C1, counterexample.** The round-trip claim as stated places no
restriction on the body bytes, but a `Message` whose three text fields are
empty (hence free of `0x1E` and `0x1F` and trivially valid UTF-8) and whose
body is the single byte `0x1E` does not round-trip: the encoded frame,
terminator stripped, splits into 5 parts and `parse_message` rejects it. -/
theorem round_trip_body_cex :
    ((0x1E : Nat) ∉ (Message.mk [] [] [0x1E] []).request_id
      ∧ (0x1E : Nat) ∉ (Message.mk [] [] [0x1E] []).method_name
      ∧ (0x1E : Nat) ∉ (Message.mk [] [] [0x1E] []).error
      ∧ (0x1F : Nat) ∉ (Message.mk [] [] [0x1E] []).request_id
      ∧ (0x1F : Nat) ∉ (Message.mk [] [] [0x1E] []).method_name
      ∧ (0x1F : Nat) ∉ (Message.mk [] [] [0x1E] []).error)
    ∧ parse_message ((message_to_bytes (Message.mk [] [] [0x1E] [])).dropLast)
        = .error (.protocolError 5)
    ∧ parse_message ((message_to_bytes (Message.mk [] [] [0x1E] [])).dropLast)
        ≠ .ok (Message.mk [] [] [0x1E] []) := by
  refine ⟨by decide, by decide, by decide⟩

/-- **C1, amended.** Round-trip identity of the frame codec: for every
`Message` whose three text fields are valid UTF-8 (the invariant of Rust's
`String`, carried here as hypotheses) and contain neither the
field-separator byte `0x1E` nor the frame-terminator byte `0x1F`, **and
whose body contains no `0x1E` byte** (the amendment the counterexample
forces; `0x1F` in the body is harmless here), decoding the encoded frame
with the trailing terminator stripped reconstructs the original `Message`
field-for-field. -/
theorem round_trip (m : Message)
    (hv0 : utf8Valid m.request_id = true) (hv1 : utf8Valid m.method_name = true)
    (hv2 : utf8Valid m.error = true)
    (h0 : (0x1E : Nat) ∉ m.request_id) (h1 : (0x1E : Nat) ∉ m.method_name)
    (h2 : (0x1E : Nat) ∉ m.error)
    (g0 : (0x1F : Nat) ∉ m.request_id) (g1 : (0x1F : Nat) ∉ m.method_name)
    (g2 : (0x1F : Nat) ∉ m.error)
    (hb : (0x1E : Nat) ∉ m.body) :
    parse_message ((message_to_bytes m).dropLast) = .ok m := by
  obtain ⟨rid, mn, bd, er⟩ := m
  have hsplit := splitSep_encode ⟨rid, mn, bd, er⟩ h0 h1 h2
  rw [splitSep_of_not_mem hb] at hsplit
  simp only [parse_message, sep_byte, hsplit, hv0, hv1, hv2, if_true]

/-- Witness for the amended round-trip at a concrete message whose body
contains `0x1F` and a non-UTF-8 byte but no `0x1E`. -/
theorem round_trip_witness :
    (utf8Valid (strBytes "req-1") = true ∧ utf8Valid (strBytes "ping") = true
      ∧ utf8Valid (strBytes "") = true
      ∧ (0x1E : Nat) ∉ strBytes "req-1" ∧ (0x1E : Nat) ∉ strBytes "ping"
      ∧ (0x1E : Nat) ∉ strBytes ""
      ∧ (0x1F : Nat) ∉ strBytes "req-1" ∧ (0x1F : Nat) ∉ strBytes "ping"
      ∧ (0x1F : Nat) ∉ strBytes ""
      ∧ (0x1E : Nat) ∉ [0, 255, 0x1F])
    ∧ parse_message ((message_to_bytes
          (Message.mk (strBytes "req-1") (strBytes "ping") [0, 255, 0x1F]
            (strBytes ""))).dropLast)
        = .ok (Message.mk (strBytes "req-1") (strBytes "ping") [0, 255, 0x1F]
            (strBytes "")) :=
  ⟨⟨by decide, by decide, by decide, by decide, by decide, by decide, by decide,
    by decide, by decide, by decide⟩,
   round_trip _ (by decide) (by decide) (by decide) (by decide) (by decide)
     (by decide) (by decide) (by decide) (by decide) (by decide)⟩

/-- **C2.** Cardinality rejection: any byte sequence that does not split
into exactly `PROTOCOL_FIELDS = 4` parts on `0x1E` makes `parse_message`
fail with the protocol error carrying the part count (so no partially
decoded `Message` is ever returned); in particular, since the split is not
bounded to 3 cuts, the stripped frame of any `Message` whose body contains
a `0x1E` byte splits into more than 4 parts and is rejected. -/
theorem parse_cardinality :
    (∀ bs : List Nat, (splitSep 0x1E bs).length ≠ PROTOCOL_FIELDS →
        parse_message bs = .error (.protocolError (splitSep 0x1E bs).length))
    ∧ ∀ m : Message, (0x1E : Nat) ∈ m.body →
        (splitSep 0x1E ((message_to_bytes m).dropLast)).length ≠ PROTOCOL_FIELDS
        ∧ parse_message ((message_to_bytes m).dropLast)
            = .error (.protocolError
                (splitSep 0x1E ((message_to_bytes m).dropLast)).length) := by
  have main : ∀ bs : List Nat, (splitSep 0x1E bs).length ≠ PROTOCOL_FIELDS →
      parse_message bs = .error (.protocolError (splitSep 0x1E bs).length) :=
    fun bs h => parse_message_not4 bs h
  refine ⟨main, fun m hm => ?_⟩
  have hlen := splitSep_length 0x1E ((message_to_bytes m).dropLast)
  have hbody : 0 < m.body.count 0x1E := List.count_pos_iff.mpr hm
  have hcount : 4 ≤ ((message_to_bytes m).dropLast).count 0x1E := by
    rw [encode_dropLast]
    simp only [List.count_append, List.count_cons_self, List.count_cons]
    omega
  have hne : (splitSep 0x1E ((message_to_bytes m).dropLast)).length
      ≠ PROTOCOL_FIELDS := by
    simp only [PROTOCOL_FIELDS]
    omega
  exact ⟨hne, main _ hne⟩

/-- Witness for cardinality rejection: a lone separator splits into 2
parts; a message whose body is `[0x41, 0x1E, 0x42]` is rejected after
encoding. -/
theorem parse_cardinality_witness :
    ((splitSep 0x1E [0x1E]).length ≠ PROTOCOL_FIELDS
      ∧ parse_message [0x1E] = .error (.protocolError (splitSep 0x1E [0x1E]).length))
    ∧ ((0x1E : Nat) ∈ (Message.mk (strBytes "r") (strBytes "m") [0x41, 0x1E, 0x42]
          (strBytes "")).body
      ∧ parse_message ((message_to_bytes (Message.mk (strBytes "r") (strBytes "m")
            [0x41, 0x1E, 0x42] (strBytes ""))).dropLast)
          = .error (.protocolError (splitSep 0x1E ((message_to_bytes
              (Message.mk (strBytes "r") (strBytes "m") [0x41, 0x1E, 0x42]
                (strBytes ""))).dropLast)).length)) :=
  ⟨⟨by decide, parse_cardinality.1 [0x1E] (by decide)⟩,
   ⟨by decide, (parse_cardinality.2 _ (by decide)).2⟩⟩

/-- **C6.** Encode wire layout: for every `Message`, `message_to_bytes`
produces exactly the concatenation
`request_id ++ [0x1E] ++ method_name ++ [0x1E] ++ error ++ [0x1E] ++ body ++ [0x1F]`,
with no length prefixes and no escaping of delimiter bytes inside fields. -/
theorem encode_layout (m : Message) :
    message_to_bytes m
      = m.request_id ++ [0x1E] ++ m.method_name ++ [0x1E] ++ m.error ++ [0x1E]
          ++ m.body ++ [0x1F] := by
  simp [message_to_bytes, metadata_delim, message_delim]

/-- **C7.** Text-validity rejection: if a byte sequence splits into exactly
4 parts on `0x1E` and the first, second or third part is not valid UTF-8,
`parse_message` fails with the encoding error; and whenever the first three
parts are valid UTF-8 the parse succeeds with the fourth part taken as the
raw body — the body is never subjected to text validation. -/
theorem text_validity (bs p0 p1 p2 p3 : List Nat)
    (hp : splitSep 0x1E bs = [p0, p1, p2, p3]) :
    ((utf8Valid p0 = false ∨ utf8Valid p1 = false ∨ utf8Valid p2 = false) →
        parse_message bs = .error .encodingError)
    ∧ (utf8Valid p0 = true → utf8Valid p1 = true → utf8Valid p2 = true →
        parse_message bs
          = .ok { request_id := p0, method_name := p1, error := p2, body := p3 }) := by
  have he : parse_message bs
      = if utf8Valid p0 then
          if utf8Valid p1 then
            if utf8Valid p2 then
              .ok { request_id := p0, method_name := p1, error := p2, body := p3 }
            else .error .encodingError
          else .error .encodingError
        else .error .encodingError := by
    simp only [parse_message, sep_byte, hp]
  constructor
  · rintro (h | h | h)
    · rw [he]; simp [h]
    · rw [he]; cases hv0 : utf8Valid p0 <;> simp [h, hv0]
    · rw [he]; cases hv0 : utf8Valid p0 <;> cases hv1 : utf8Valid p1 <;>
        simp [h, hv0, hv1]
  · intro h0 h1 h2
    rw [he]; simp [h0, h1, h2]

/-- Witness for text-validity rejection: `0xFF` in the first field is
rejected, while a frame whose body is the invalid-UTF-8 byte `0xFF` still
parses. -/
theorem text_validity_witness :
    (splitSep 0x1E [0xFF, 0x1E, 0x1E, 0x1E, 0x90] = [[0xFF], [], [], [0x90]]
      ∧ parse_message [0xFF, 0x1E, 0x1E, 0x1E, 0x90] = .error .encodingError)
    ∧ (splitSep 0x1E [0x1E, 0x1E, 0x1E, 0xFF] = [[], [], [], [0xFF]]
      ∧ parse_message [0x1E, 0x1E, 0x1E, 0xFF]
          = .ok { request_id := [], method_name := [], error := [], body := [0xFF] }) :=
  ⟨⟨by decide,
    (text_validity [0xFF, 0x1E, 0x1E, 0x1E, 0x90] [0xFF] [] [] [0x90]
      (by decide)).1 (Or.inl (by decide))⟩,
   ⟨by decide,
    (text_validity [0x1E, 0x1E, 0x1E, 0xFF] [] [] [] [0xFF]
      (by decide)).2 (by decide) (by decide) (by decide)⟩⟩

/-- A 36-character UUID rendering, as `Uuid::new_v4().to_string()` always
produces (used as the client-generated correlation identifier in
witnesses). -/
def uuidA : List Nat := strBytes "00000000-0000-4000-8000-000000000000"

/-- A second, distinct 36-character UUID rendering (used as a mismatched
peer identifier in witnesses). -/
def uuidB : List Nat := strBytes "11111111-1111-4111-8111-111111111111"

lemma do_request_of_read (timeout : Nat)
    (request_id method_name request_body input : List Nat) (msg : Message)
    (ht : timeout ≠ 0) (hread : read_message input = .ok msg) :
    do_request timeout request_id method_name request_body input
      = (message_to_bytes
            { request_id := request_id, method_name := method_name,
              body := request_body, error := [] },
         if msg.error ≠ [] then .error (.appError msg.error)
         else if msg.request_id ≠ request_id then .error (.wrongRequestId msg.error)
         else .ok msg.body) := by
  simp only [do_request, setReadTimeoutResult, if_neg ht, hread]
  by_cases h1 : msg.error ≠ [] <;> by_cases h2 : msg.request_id ≠ request_id <;>
    simp [h1, h2]

/-- **C8.** Framing read: `read_message` consumes bytes one at a time and
accumulates them up to the first frame-terminator `0x1F`; the terminator is
excluded from the bytes handed to `parse_message`, and a stream that ends
before a terminator is seen fails with the connection-closed error. -/
theorem read_message_framing (pre rest : List Nat) (h : message_delim ∉ pre) :
    readFrame (pre ++ message_delim :: rest) = .ok pre
    ∧ read_message (pre ++ message_delim :: rest) = parse_message pre
    ∧ readFrame pre = .error .connClosed
    ∧ read_message pre = .error .connClosed := by
  have h1 := readFrame_term pre rest h
  have h2 := readFrame_eof pre h
  refine ⟨h1, ?_, h2, ?_⟩
  · rw [read_message, h1]
  · rw [read_message, h2]

/-- Witness for the framing read at a concrete stream: the accumulated
frame stops at the first terminator and the truncated stream is refused. -/
theorem read_message_framing_witness :
    message_delim ∉ [0x61, 0x1E, 0x62]
    ∧ readFrame ([0x61, 0x1E, 0x62] ++ message_delim :: [9, 9])
        = .ok [0x61, 0x1E, 0x62]
    ∧ read_message ([0x61, 0x1E, 0x62] ++ message_delim :: [9, 9])
        = parse_message [0x61, 0x1E, 0x62]
    ∧ readFrame [0x61, 0x1E, 0x62] = .error .connClosed
    ∧ read_message [0x61, 0x1E, 0x62] = .error .connClosed :=
  ⟨by decide, read_message_framing [0x61, 0x1E, 0x62] [9, 9] (by decide)⟩

/-- Incoming stream for the application-error witness: header `uuidB`,
empty method, `error = "not found"`, body "zz". -/
def appErrInput : List Nat :=
  uuidB ++ 0x1E :: 0x1E :: (strBytes "not found" ++ 0x1E :: (strBytes "zz" ++ [0x1F]))

/-- Incoming stream for the correlation witness: header `uuidB`, empty
method and error, body "secret". -/
def mismatchInput : List Nat :=
  uuidB ++ 0x1E :: 0x1E :: 0x1E :: (strBytes "secret" ++ [0x1F])

/-- Incoming stream for the success witness: header `uuidA`, empty method
and error, body "pong". -/
def pongInput : List Nat :=
  uuidA ++ 0x1E :: 0x1E :: 0x1E :: (strBytes "pong" ++ [0x1F])

/-- Incoming stream for the mismatch-text witness: header `uuidB`, empty
method and error, body "x". -/
def wrongIdInput : List Nat :=
  uuidB ++ 0x1E :: 0x1E :: 0x1E :: (strBytes "x" ++ [0x1F])

/-- Incoming stream whose response identifier is the six bytes of
"client", with empty method, error and body. -/
def shortIdInput : List Nat :=
  strBytes "client" ++ [0x1E, 0x1E, 0x1E, 0x1F]

/-- **C3.** Application-error precedence: a decoded response with a
non-empty `error` field makes `do_request` fail with the application error,
whose formatted text is `"client response error: "` followed by the peer's
message verbatim (a suffix of the text), with no hypothesis on whether
`request_id` matches, and no body is ever returned. -/
theorem app_error_precedence (timeout : Nat)
    (request_id method_name request_body input : List Nat) (msg : Message)
    (ht : timeout ≠ 0) (hread : read_message input = .ok msg)
    (herr : msg.error ≠ []) :
    (do_request timeout request_id method_name request_body input).2
        = .error (.appError msg.error)
    ∧ errorText (.appError msg.error)
        = some (strBytes "client response error: " ++ msg.error)
    ∧ msg.error <:+ (strBytes "client response error: " ++ msg.error)
    ∧ ∀ b : List Nat,
        (do_request timeout request_id method_name request_body input).2 ≠ .ok b := by
  rw [do_request_of_read timeout request_id method_name request_body input msg ht hread]
  refine ⟨by simp [herr], rfl, List.suffix_append _ _, ?_⟩
  intro b hb
  simp [herr] at hb

/-- Witness for application-error precedence: the peer answers with a
mismatched identifier and `error = "not found"`; the call still fails with
the application error carrying "not found". -/
theorem app_error_precedence_witness :
    ((10 : Nat) ≠ 0
      ∧ read_message appErrInput = .ok (Message.mk uuidB [] (strBytes "zz")
          (strBytes "not found"))
      ∧ (Message.mk uuidB [] (strBytes "zz") (strBytes "not found")).error ≠ [])
    ∧ (do_request 10 uuidA (strBytes "ping") [] appErrInput).2
        = .error (.appError (strBytes "not found"))
    ∧ strBytes "not found" <:+ (strBytes "client response error: "
        ++ strBytes "not found") := by
  have h := app_error_precedence 10 uuidA (strBytes "ping") [] appErrInput
    (Message.mk uuidB [] (strBytes "zz") (strBytes "not found"))
    (by decide) (by decide) (by decide)
  exact ⟨⟨by decide, by decide, by decide⟩, h.1, h.2.2.1⟩

/-- **C4.** Correlation enforcement: a decoded response with an empty
`error` field whose `request_id` differs from the client-generated one
makes `do_request` fail with the correlation-mismatch error
(`wrongRequestId`), and the response body is never returned. -/
theorem correlation_enforcement (timeout : Nat)
    (request_id method_name request_body input : List Nat) (msg : Message)
    (ht : timeout ≠ 0) (hread : read_message input = .ok msg)
    (herr : msg.error = []) (hid : msg.request_id ≠ request_id) :
    (do_request timeout request_id method_name request_body input).2
        = .error (.wrongRequestId msg.error)
    ∧ ∀ b : List Nat,
        (do_request timeout request_id method_name request_body input).2 ≠ .ok b := by
  rw [do_request_of_read timeout request_id method_name request_body input msg ht hread]
  constructor
  · simp [herr, hid]
  · intro b hb
    simp [herr, hid] at hb

/-- Witness for correlation enforcement: the client sent `uuidA`, the peer
answered under `uuidB` with an empty error and body "secret"; the body is
not returned. -/
theorem correlation_enforcement_witness :
    ((10 : Nat) ≠ 0
      ∧ read_message mismatchInput = .ok (Message.mk uuidB [] (strBytes "secret") [])
      ∧ (Message.mk uuidB [] (strBytes "secret") []).error = []
      ∧ (Message.mk uuidB [] (strBytes "secret") []).request_id ≠ uuidA)
    ∧ (do_request 10 uuidA (strBytes "ping") [] mismatchInput).2
        = .error (.wrongRequestId [])
    ∧ (do_request 10 uuidA (strBytes "ping") [] mismatchInput).2
        ≠ .ok (strBytes "secret") := by
  have h := correlation_enforcement 10 uuidA (strBytes "ping") [] mismatchInput
    (Message.mk uuidB [] (strBytes "secret") [])
    (by decide) (by decide) (by decide) (by decide)
  exact ⟨⟨by decide, by decide, by decide, by decide⟩, h.1, h.2 (strBytes "secret")⟩

/-- **C5.** Success path: if the incoming stream decodes to a `Message`
with an empty `error` field and a `request_id` equal to the one generated
for this call, `do_request` writes the encoded request and returns the
decoded body bytes unchanged. -/
theorem success_path (timeout : Nat)
    (request_id method_name request_body input : List Nat) (msg : Message)
    (ht : timeout ≠ 0) (hread : read_message input = .ok msg)
    (herr : msg.error = []) (hid : msg.request_id = request_id) :
    do_request timeout request_id method_name request_body input
      = (message_to_bytes
            { request_id := request_id, method_name := method_name,
              body := request_body, error := [] },
         .ok msg.body) := by
  rw [do_request_of_read timeout request_id method_name request_body input msg ht hread]
  simp [herr, hid]

/-- Witness for the success path: the end-to-end ping scenario — the peer
echoes the client's identifier with `error = ""` and body "pong", and
`do_request` returns exactly the bytes of "pong". -/
theorem success_path_witness :
    ((10 : Nat) ≠ 0
      ∧ read_message pongInput = .ok (Message.mk uuidA [] (strBytes "pong") [])
      ∧ (Message.mk uuidA [] (strBytes "pong") []).error = []
      ∧ (Message.mk uuidA [] (strBytes "pong") []).request_id = uuidA)
    ∧ do_request 10 uuidA (strBytes "ping") [] pongInput
        = (message_to_bytes
              { request_id := uuidA, method_name := strBytes "ping",
                body := [], error := [] },
           .ok (strBytes "pong")) :=
  ⟨⟨by decide, by decide, by decide, by decide⟩,
   success_path 10 uuidA (strBytes "ping") [] pongInput
     (Message.mk uuidA [] (strBytes "pong") [])
     (by decide) (by decide) (by decide) (by decide)⟩

/-- **C9.** Zero timeout: with `timeout_seconds = 0`, arming the read
deadline is rejected by the transport (`set_read_timeout(Some(zero))` is an
invalid-input error per the standard library contract modelled by
`setReadTimeoutResult`), so every `do_request` call fails before any byte
of the response stream is consumed (the result is the same for every
`input`) — and only after the full encoded request frame has been written
(the first component). -/
theorem zero_timeout (request_id method_name request_body input : List Nat) :
    do_request 0 request_id method_name request_body input
      = (message_to_bytes
            { request_id := request_id, method_name := method_name,
              body := request_body, error := [] },
         .error .invalidTimeout) := by
  simp [do_request, setReadTimeoutResult]

/-- **C10, counterexample.** The mismatch error text is exactly
`"client wrong requestID error: "`, but it is not true that it never
contains the received `request_id`: a peer that answers under the short
identifier "client" (with empty error, forcing the mismatch branch)
produces a message that does contain that received identifier as a
substring. -/
theorem mismatch_text_cex :
    read_message shortIdInput = .ok (Message.mk (strBytes "client") [] [] [])
    ∧ (Message.mk (strBytes "client") [] [] []).request_id ≠ uuidA
    ∧ (do_request 10 uuidA (strBytes "ping") [] shortIdInput).2
        = .error (.wrongRequestId [])
    ∧ errorText (.wrongRequestId [])
        = some (strBytes "client wrong requestID error: ")
    ∧ strBytes "client" <:+: strBytes "client wrong requestID error: " :=
  ⟨by decide, by decide, by decide, by decide, by decide⟩

/-- **C10, amended.** On the correlation-mismatch branch the interpolated
`error` field is necessarily empty, so the formatted message is exactly
`"client wrong requestID error: "` (30 bytes); it therefore contains
neither the sent `request_id` (a 36-character UUID rendering, hypothesis
`hlen`) nor any received identifier longer than 30 bytes — though a short
received identifier that happens to be a substring of the constant is
contained, as the counterexample shows. -/
theorem mismatch_error_text (timeout : Nat)
    (request_id method_name request_body input : List Nat) (msg : Message)
    (ht : timeout ≠ 0) (hlen : request_id.length = 36)
    (hread : read_message input = .ok msg) (herr : msg.error = [])
    (hid : msg.request_id ≠ request_id) :
    (do_request timeout request_id method_name request_body input).2
        = .error (.wrongRequestId msg.error)
    ∧ errorText (.wrongRequestId msg.error)
        = some (strBytes "client wrong requestID error: ")
    ∧ ¬ request_id <:+: strBytes "client wrong requestID error: "
    ∧ ∀ s : List Nat, (strBytes "client wrong requestID error: ").length < s.length →
        ¬ s <:+: strBytes "client wrong requestID error: " := by
  have hconst : (strBytes "client wrong requestID error: ").length = 30 := by decide
  refine ⟨?_, ?_, ?_, ?_⟩
  · rw [do_request_of_read timeout request_id method_name request_body input msg ht hread]
    simp [herr, hid]
  · rw [herr]
    simp [errorText]
  · intro hinf
    have hle := hinf.length_le
    omega
  · intro s hs hinf
    have hle := hinf.length_le
    omega

/-- Witness for the amended mismatch-text property, with a 36-character
received identifier `uuidB`. -/
theorem mismatch_error_text_witness :
    ((10 : Nat) ≠ 0 ∧ uuidA.length = 36
      ∧ read_message wrongIdInput = .ok (Message.mk uuidB [] (strBytes "x") [])
      ∧ (Message.mk uuidB [] (strBytes "x") []).error = []
      ∧ (Message.mk uuidB [] (strBytes "x") []).request_id ≠ uuidA)
    ∧ (do_request 10 uuidA (strBytes "ping") [] wrongIdInput).2
        = .error (.wrongRequestId [])
    ∧ errorText (.wrongRequestId [])
        = some (strBytes "client wrong requestID error: ")
    ∧ ¬ uuidA <:+: strBytes "client wrong requestID error: " := by
  have h := mismatch_error_text 10 uuidA (strBytes "ping") [] wrongIdInput
    (Message.mk uuidB [] (strBytes "x") [])
    (by decide) (by decide) (by decide) (by decide) (by decide)
  exact ⟨⟨by decide, by decide, by decide, by decide, by decide⟩, h.1, h.2.1, h.2.2.1⟩

end Unixconn
